import Mathlib

/-!
Verification development for the `api-cache` repository (Go).

The embedding below translates the two source files
`src/http_utils/util.go` (package `http_utils`) and `src/main/main.go`
(packages `main` and `server`) into Lean definitions.

Modelling conventions:
  * HTTP transport is a `World : String → Option Response` parameter:
    `none` means the request could not be created or the GET failed
    (in the Go source both paths call `log.Panicf`), `some r` is the
    upstream response (status code, body, `Link` header; the empty
    string stands for an absent `Link` header).
  * A Go `log.Panicf` / out-of-range index / nil deref is modelled as the
    `none` outcome of an `Option` result.
  * `[]byte` bodies and URLs are `String`s.
  * `time.Time` is an epoch-seconds `Int`; the server's local timezone
    (the result of `Time.Local()`) is an `(offsetSeconds, zoneName)`
    parameter, since Go resolves it from the process environment.
  * `json.Unmarshal` into `[]*github_types.Repository` and `json.Marshal`
    are standard-library functions outside the repository; they are passed
    as explicit function parameters `dec : String → Option (List Repository)`
    (`none` = decode error, in which case the Go slice stays `nil`, i.e.
    contributes no elements) and `marshal : List Repository → String`.
  * `sort.Slice` with comparator `less` is modelled by insertion sort
    with the complementary total relation; the Go sort is unstable but any
    sort with that comparator yields a list pairwise-ordered the same way,
    and every claim below depends only on the ordering/permutation facts.
  * The Go `strings` helpers (`Split`, `TrimSpace`, `TrimPrefix`,
    `TrimSuffix`) are re-implemented over `List Char`; the source only ever
    splits on one-character separators, and all strings involved are ASCII,
    so character- and byte-based indexing agree.
-/

namespace ApiCache

/-- Whether the first list is a prefix of the second. -/
def listIsPrefix : List Char → List Char → Bool
  | [], _ => true
  | _ :: _, [] => false
  | a :: as, b :: bs => a = b && listIsPrefix as bs

/-- Go `strings.TrimPrefix`. -/
def trimPrefix (s p : String) : String :=
  if listIsPrefix p.data s.data then String.mk (s.data.drop p.data.length) else s

/-- Go `strings.TrimSuffix` (`s[:len(s)-len(suffix)]` when the suffix
matches). -/
def trimSuffix (s p : String) : String :=
  if listIsPrefix p.data.reverse s.data.reverse then
    String.mk (s.data.take (s.data.length - p.data.length))
  else s

/-- Go `strings.TrimSpace`: drop whitespace from both ends. -/
def goTrim (s : String) : String :=
  String.mk
    (((s.data.dropWhile Char.isWhitespace).reverse.dropWhile
        Char.isWhitespace).reverse)

/-- Splitting a character list on a separator character, grouping the
segments between occurrences; `[]` yields `[[]]`, as with Go
`strings.Split("", sep)`. -/
def splitOnChar (sep : Char) : List Char → List (List Char)
  | [] => [[]]
  | c :: rest =>
    let r := splitOnChar sep rest
    if c = sep then [] :: r
    else
      match r with
      | [] => [[c]]
      | g :: gs => (c :: g) :: gs

/-- Go `strings.Split(s, sep)` for the one-character separators the source
uses (`","`, `";"`, `"/"`). -/
def goSplit (sep : Char) (s : String) : List String :=
  (splitOnChar sep s.data).map String.mk

/-- An upstream HTTP response as read by `GetPage`: status code, body, and
the `Link` header (`""` when the header is absent). -/
structure Response where
  status : Nat
  body : String
  linkHeader : String
deriving DecidableEq, Repr

/-- The transport layer: maps a request URL to `none` (request-creation or
transport failure, which the Go code turns into `log.Panicf`) or to the
response. -/
def World : Type := String → Option Response

/-- `http_utils.PagedGet`: keeps track of the next link and the auth header. -/
structure PagedGet where
  nextLink : String
  authHdr : String
deriving DecidableEq, Repr

/-- `http_utils.NewPagedGet`. -/
def NewPagedGet (path apiToken : String) : PagedGet :=
  { nextLink := "https://api.github.com" ++ path,
    authHdr := if apiToken = "" then "" else "token " ++ apiToken }

/-- The link-header scan inside `GetPage`: Go splits the header on `","`,
splits each entry on `";"`, and reads `l[1]` (an index-out-of-range panic,
modelled `none`, if the entry has no `";"`). `some none` = no `rel="next"`
entry; `some (some url)` = the next URL (angle brackets trimmed). -/
def findNextLink : List String → Option (Option String)
  | [] => some none
  | lr :: rest =>
    let l := goSplit ';' lr
    match l.get? 1 with
    | none => none
    | some l1 =>
      if goTrim l1 = "rel=\"next\"" then
        some (some (trimSuffix (trimPrefix (goTrim (l.headD "")) "<") ">"))
      else findNextLink rest

/-- `http_utils.PagedGet.GetPage`: returns the page body, whether more pages
remain, and the updated `PagedGet` state; `none` is a panic (empty
`nextLink`, request/transport failure, or a malformed link-header entry).
Note that the Go code never inspects `resp.StatusCode`, and does not change
`nextLink` when it reports that no pages remain. -/
def GetPage (w : World) (g : PagedGet) : Option (String × Bool × PagedGet) :=
  if g.nextLink = "" then none
  else
    match w g.nextLink with
    | none => none
    | some resp =>
      if resp.linkHeader = "" then some (resp.body, false, g)
      else
        match findNextLink (goSplit ',' resp.linkHeader) with
        | none => none
        | some none => some (resp.body, false, g)
        | some (some url) => some (resp.body, true, { g with nextLink := url })

/-- The page-walking loop of `server.refreshNetflixRepos` (`for next { ... }`),
collecting every page body in order. `fuel` bounds the iteration count so the
function is total; `none` covers both a panic inside `GetPage` and fuel
exhaustion. -/
def runPages (w : World) : Nat → PagedGet → Option (List String)
  | 0, _ => none
  | fuel + 1, g =>
    match GetPage w g with
    | none => none
    | some (body, more, g') =>
      if more then
        match runPages w fuel g' with
        | none => none
        | some rest => some (body :: rest)
      else some [body]

/-- The route-path constants of `main.go`. -/
def kRouteHealthCheck : String := "/healthcheck"

def kGitHubRoot : String := "/"

def kGitHubNetflix : String := "/orgs/Netflix"

def kGitHubNetflixMembers : String := "/orgs/Netflix/members"

def kGitHubNetflixRepos : String := "/orgs/Netflix/repos"

/-- The fields of `github_types.Repository` that `refreshNetflixRepos`
dereferences (`*r.Name`, `*r.ForksCount`, `r.UpdatedAt.Time`,
`*r.OpenIssuesCount`, `*r.StargazersCount`). `updatedAt` is epoch seconds. -/
structure Repository where
  name : String
  forksCount : Int
  updatedAt : Int
  openIssuesCount : Int
  stargazersCount : Int
deriving DecidableEq, Repr

/-- `server.viewElm`: the cached per-repo view fields. -/
structure viewElm where
  name : String
  forks : Int
  updated : Int
  openIssues : Int
  stars : Int
deriving DecidableEq, Repr

/-- `viewElm` built from one repository entity, as in `refreshNetflixRepos`. -/
def mkViewElm (r : Repository) : viewElm :=
  { name := r.name, forks := r.forksCount, updated := r.updatedAt,
    openIssues := r.openIssuesCount, stars := r.stargazersCount }

/-- The mutable fields of `server.Server` that the claims are about: the
per-route cached bodies (the Go map starts empty; a missing key reads back
as a nil byte slice, i.e. the empty body, so the four fixed keys are plain
`String` fields starting `""`), the four sorted view slices, and the
readiness flag. -/
structure Server where
  cacheRoot : String
  cacheNetflix : String
  cacheMembers : String
  cacheRepos : String
  topForks : List viewElm
  lastUpdated : List viewElm
  topOpenIssues : List viewElm
  topStars : List viewElm
  ready : Bool
deriving DecidableEq, Repr

/-- `server.NewServer`: empty caches, empty views, `ready = false`. -/
def NewServer : Server :=
  { cacheRoot := "", cacheNetflix := "", cacheMembers := "", cacheRepos := "",
    topForks := [], lastUpdated := [], topOpenIssues := [], topStars := [],
    ready := false }

/-- The entities decoded from a list of page bodies: per page,
`json.Unmarshal` into a fresh nil slice, the error discarded, so a page that
fails to decode contributes no elements; pages are appended in order. -/
def reposOfPages (dec : String → Option (List Repository)) (pages : List String) :
    List Repository :=
  pages.flatMap (fun b => (dec b).getD [])

/-- `sort.Slice(view, less)` with `less i j = key i > key j`, i.e. the result
is pairwise non-increasing in `key`. Modelled with insertion sort on the
complementary total relation `key a ≥ key b`. -/
def sortByDesc (key : viewElm → Int) (l : List viewElm) : List viewElm :=
  l.insertionSort (fun a b => key b ≤ key a)

/-- `server.refreshRoot`: one `GetPage`, store the body in the root cache. -/
def refreshRoot (w : World) (apiToken : String) (s : Server) : Option Server :=
  match GetPage w (NewPagedGet kGitHubRoot apiToken) with
  | none => none
  | some (body, _, _) => some { s with cacheRoot := body }

/-- `server.refreshNetflix`. -/
def refreshNetflix (w : World) (apiToken : String) (s : Server) : Option Server :=
  match GetPage w (NewPagedGet kGitHubNetflix apiToken) with
  | none => none
  | some (body, _, _) => some { s with cacheNetflix := body }

/-- `server.refreshNetflixMembers`. -/
def refreshNetflixMembers (w : World) (apiToken : String) (s : Server) :
    Option Server :=
  match GetPage w (NewPagedGet kGitHubNetflixMembers apiToken) with
  | none => none
  | some (body, _, _) => some { s with cacheMembers := body }

/-- `server.refreshNetflixRepos`: walk all pages, decode and flatten the
repos, re-serialize the flattened slice into the repos cache, rebuild the
four view slices from this cycle's elements (the old slices are truncated to
length zero first), and sort each by its key, descending. -/
def refreshNetflixRepos (w : World) (dec : String → Option (List Repository))
    (marshal : List Repository → String) (fuel : Nat) (apiToken : String)
    (s : Server) : Option Server :=
  match runPages w fuel (NewPagedGet kGitHubNetflixRepos apiToken) with
  | none => none
  | some pages =>
    let repos := reposOfPages dec pages
    let elms := repos.map mkViewElm
    some { s with
      cacheRepos := marshal repos,
      topForks := sortByDesc (fun v => v.forks) elms,
      lastUpdated := sortByDesc (fun v => v.updated) elms,
      topOpenIssues := sortByDesc (fun v => v.openIssues) elms,
      topStars := sortByDesc (fun v => v.stars) elms }

/-- `server.refreshCaches`: run the four per-route refreshes (concurrent in
Go, joined at a `WaitGroup` barrier; they write disjoint fields, so the
joined result is their combined update), then mark the server ready. A panic
in any refresh goroutine kills the Go process, hence `none`. -/
def refreshCaches (w : World) (dec : String → Option (List Repository))
    (marshal : List Repository → String) (fuel : Nat) (apiToken : String)
    (s : Server) : Option Server :=
  match refreshRoot w apiToken s with
  | none => none
  | some s1 =>
    match refreshNetflix w apiToken s1 with
    | none => none
    | some s2 =>
      match refreshNetflixRepos w dec marshal fuel apiToken s2 with
      | none => none
      | some s3 =>
        match refreshNetflixMembers w apiToken s3 with
        | none => none
        | some s4 => some { s4 with ready := true }

/-- The scheduler loop of `server.Run`, one `refreshCaches` per cycle, with
each cycle's upstream world given by the trace. -/
def runCycles (dec : String → Option (List Repository))
    (marshal : List Repository → String) (fuel : Nat) (apiToken : String)
    (s : Server) : List World → Option Server
  | [] => some s
  | w :: ws =>
    match refreshCaches w dec marshal fuel apiToken s with
    | none => none
    | some s' => runCycles dec marshal fuel apiToken s' ws

/-- `server.handleHealthCheck`: the HTTP status it writes. -/
def handleHealthCheck (s : Server) : Nat :=
  if s.ready then 200 else 503

/-- An incoming HTTP request as seen by the handlers: method, URL path,
headers, body. -/
structure InRequest where
  method : String
  urlPath : String
  headers : List (String × String)
  body : String
deriving DecidableEq, Repr

/-- An outgoing request as issued by `http_utils.Forward`. -/
structure OutRequest where
  method : String
  url : String
  headers : List (String × String)
  body : String
deriving DecidableEq, Repr

/-- The request `http_utils.Forward` issues for an incoming request:
`http.NewRequest("GET", "https://api.github.com" + r.URL, r.Body)` with
`req.Header = r.Header` — the method is hardcoded to `"GET"`. -/
def forwardedRequest (r : InRequest) : OutRequest :=
  { method := "GET", url := "https://api.github.com" ++ r.urlPath,
    headers := r.headers, body := r.body }

/-- `http_utils.Forward`: issue the forwarded request and write the raw
upstream body back (status and headers are not propagated; the header-copy
line is commented out in the source). The upstream transport takes the full
request; `none` is the `log.Panicf` path. -/
def Forward (upstream : OutRequest → Option Response) (r : InRequest) :
    Option String :=
  match upstream (forwardedRequest r) with
  | none => none
  | some resp => some resp.body

/-- `server.handleRoot`: serve the cached root body for path `"/"`, else
pass the request through `Forward`. The result is the response body. -/
def handleRoot (upstream : OutRequest → Option Response) (s : Server)
    (r : InRequest) : Option String :=
  if r.urlPath = "/" then some s.cacheRoot
  else Forward upstream r

/-- Decimal digits of a character list; `none` when empty or non-digit,
matching the error cases of `strconv.Atoi` on the strings at hand. -/
def parseDigits : List Char → Option Nat
  | [] => none
  | cs =>
    if cs.all (fun c => c.isDigit) then
      some (cs.foldl (fun n c => 10 * n + (c.toNat - 48)) 0)
    else none

/-- `count, _ := strconv.Atoi(tok)`: the parse error is discarded, in which
case `Atoi` has returned `0`. -/
def goAtoi (s : String) : Int :=
  match s.toList with
  | '-' :: rest => match parseDigits rest with
    | some n => -(n : Int)
    | none => 0
  | '+' :: rest => match parseDigits rest with
    | some n => (n : Int)
    | none => 0
  | cs => match parseDigits cs with
    | some n => (n : Int)
    | none => 0

/-- Left-pad the decimal rendering of a nonnegative integer to 2 digits. -/
def pad2 (n : Int) : String :=
  if n < 10 then "0" ++ toString n else toString n

/-- Left-pad the decimal rendering of a nonnegative integer to 4 digits. -/
def pad4 (n : Int) : String :=
  if n < 10 then "000" ++ toString n
  else if n < 100 then "00" ++ toString n
  else if n < 1000 then "0" ++ toString n
  else toString n

/-- Civil date (year, month, day) from days since the Unix epoch
(proleptic Gregorian), the standard era-based conversion used by time
libraries. -/
def civilFromDays (z0 : Int) : Int × Int × Int :=
  let z := z0 + 719468
  let era := z.fdiv 146097
  let doe := z - era * 146097
  let yoe := (doe - doe / 1460 + doe / 36524 - doe / 146096) / 365
  let y := yoe + era * 400
  let doy := doe - (365 * yoe + yoe / 4 - yoe / 100)
  let mp := (5 * doy + 2) / 153
  let d := doy - (153 * mp + 2) / 5 + 1
  let m := mp + (if mp < 10 then 3 else -9)
  (y + (if m ≤ 2 then 1 else 0), m, d)

/-- Go's numeric timezone rendering `±hhmm` for an offset in seconds. -/
def offsetString (offsetSec : Int) : String :=
  let sign := if offsetSec < 0 then "-" else "+"
  let a := if offsetSec < 0 then -offsetSec else offsetSec
  sign ++ pad2 (a / 3600) ++ pad2 ((a % 3600) / 60)

/-- Go `time.Time.String()` for a whole-second instant viewed in a zone with
the given offset and name: layout `2006-01-02 15:04:05 -0700 MST` (the
fractional-seconds part is empty for whole seconds). `t.Local()` is the same
instant with the server's local offset and zone name substituted. -/
def goTimeString (epochSec offsetSec : Int) (zoneName : String) : String :=
  let lt := epochSec + offsetSec
  let days := lt.fdiv 86400
  let secs := lt - days * 86400
  let ymd := civilFromDays days
  pad4 ymd.1 ++ "-" ++ pad2 ymd.2.1 ++ "-" ++ pad2 ymd.2.2 ++ " " ++
    pad2 (secs / 3600) ++ ":" ++ pad2 ((secs % 3600) / 60) ++ ":" ++
    pad2 (secs % 60) ++ " " ++ offsetString offsetSec ++ " " ++ zoneName

/-- The `last_updated` metric rendering of `handleViews`:
`strings.TrimSuffix(t.Local().String(), "-0700 PDT")` with `"Z"` appended
by the surrounding format string. `tzOffset`/`tzName` are the server's
local timezone. -/
def renderUpdated (epochSec tzOffset : Int) (tzName : String) : String :=
  trimSuffix (goTimeString epochSec tzOffset tzName) "-0700 PDT" ++ "Z"

/-- The element string built for index `ii` in the `handleViews` loop:
`none` models the out-of-range index panic on the view slice; an
unrecognized sort key leaves `elm` at its zero value `""`. -/
def renderViewElm (tzOffset : Int) (tzName : String) (s : Server)
    (sortBy : String) (ii : Nat) : Option String :=
  if sortBy = "forks" then
    (s.topForks.get? ii).map (fun v =>
      "[\"Netflix/" ++ v.name ++ "\"," ++ toString v.forks ++ "]")
  else if sortBy = "last_updated" then
    (s.lastUpdated.get? ii).map (fun v =>
      "[\"Netflix/" ++ v.name ++ "\",\"" ++
        renderUpdated v.updated tzOffset tzName ++ "\"]")
  else if sortBy = "open_issues" then
    (s.topOpenIssues.get? ii).map (fun v =>
      "[\"Netflix/" ++ v.name ++ "\"," ++ toString v.openIssues ++ "]")
  else if sortBy = "stars" then
    (s.topStars.get? ii).map (fun v =>
      "[\"Netflix/" ++ v.name ++ "\"," ++ toString v.stars ++ "]")
  else some ""

/-- The body-building loop of `handleViews`:
`for ii := 0; ii < count; ii++ { body += elm; if ii < count-1 { body += "," } }`
followed by `body += "]"`. The first argument counts the remaining
iterations (`count - ii`), the second is the loop index `ii`; the comma is
appended exactly when `ii < count - 1`, i.e. when further iterations
remain. -/
def viewsLoop (render : Nat → Option String) : Nat → Nat → String →
    Option String
  | 0, _, acc => some (acc ++ "]")
  | rem + 1, ii, acc =>
    match render ii with
    | none => none
    | some elm =>
      viewsLoop render rem (ii + 1)
        (if 0 < rem then acc ++ elm ++ "," else acc ++ elm)

/-- The body of `server.handleViews` after tokenizing the path: `count` is
the (error-discarded) `Atoi` of `tokens[3]`, `sortBy` is `tokens[4]`. The
result is the written status (always 200, from the implicit `w.Write`) and
body; `none` is a panic in the loop. A negative `count` skips the loop, as
in Go. -/
def handleViewsTokens (tzOffset : Int) (tzName : String) (s : Server)
    (count : Int) (sortBy : String) : Option (Nat × String) :=
  (viewsLoop (renderViewElm tzOffset tzName s sortBy) count.toNat 0 "[").map
    (fun b => ((200 : Nat), b))

/-- `server.handleViews`: split the trimmed path on `"/"`; reading
`tokens[3]` or `tokens[4]` out of range is a panic (`none`). -/
def handleViews (tzOffset : Int) (tzName : String) (s : Server)
    (path : String) : Option (Nat × String) :=
  let tokens := goSplit '/' (goTrim path)
  match tokens.get? 3, tokens.get? 4 with
  | some t3, some t4 => handleViewsTokens tzOffset tzName s (goAtoi t3) t4
  | _, _ => none

/-! Concrete fixtures used by the theorems below. -/

/-- A three-page upstream chain for the repos route: the first two responses
carry a `rel="next"` link, the third only a `rel="prev"` link. -/
def chainWorld (b1 b2 b3 : String) : World := fun u =>
  if u = "https://api.github.com/orgs/Netflix/repos" then
    some ⟨200, b1, "<https://api.github.com/p2>; rel=\"next\""⟩
  else if u = "https://api.github.com/p2" then
    some ⟨200, b2,
      "<https://api.github.com/p3>; rel=\"next\", <https://api.github.com/p1>; rel=\"prev\""⟩
  else if u = "https://api.github.com/p3" then
    some ⟨200, b3, "<https://api.github.com/p1>; rel=\"prev\""⟩
  else none

/-- An upstream that answers every URL with a single page. -/
def okWorld : World := fun _ => some ⟨200, "B", ""⟩

/-- An upstream on which every request fails at the transport layer. -/
def errWorld : World := fun _ => none

/-- An upstream that answers every URL with a single last page `"L"`. -/
def wLast : World := fun _ => some ⟨200, "L", ""⟩

/-- A sample view element. -/
def rA : viewElm := ⟨"r1", 9, 1609459200, 3, 10⟩

/-- A second sample view element. -/
def rB : viewElm := ⟨"r2", 5, 1609459300, 7, 2⟩

/-- A server holding two published view elements, each view sorted by its
own key. -/
def sampleServer : Server :=
  { NewServer with
    topForks := [rA, rB], lastUpdated := [rB, rA],
    topOpenIssues := [rB, rA], topStars := [rA, rB] }

/-- A concrete stand-in for `json.Unmarshal` decoding every body to two
repositories. -/
def decT : String → Option (List Repository) := fun _ =>
  some [⟨"repoA", 9, 1609459200, 3, 10⟩, ⟨"repoB", 5, 1609459300, 7, 2⟩]

/-- A concrete stand-in for `json.Unmarshal` failing on the body `"P2"`. -/
def decW : String → Option (List Repository) := fun b =>
  if b = "P2" then none else some [⟨"repoA", 9, 1609459200, 3, 10⟩]

/-- A concrete stand-in for `json.Marshal`. -/
def marshalT : List Repository → String := fun rs => toString rs.length

/-- A sample incoming POST request for the pass-through proxy. -/
def postReq : InRequest :=
  { method := "POST", urlPath := "/foo", headers := [("H", "v")],
    body := "payload" }

/-- A concrete upstream transport for the pass-through proxy. -/
def upstreamT : OutRequest → Option Response := fun _ => some ⟨200, "up", ""⟩

/-! Theorems. -/

/-- The page walk over the three-page chain collects exactly the three
bodies, whatever they are, for any fuel at least 3. -/
theorem runPages_chainWorld (b1 b2 b3 : String) (fuel : Nat) :
    runPages (chainWorld b1 b2 b3) (fuel + 3)
      (NewPagedGet kGitHubNetflixRepos "") = some [b1, b2, b3] := rfl

/-- Claim C1: for every view and every valid requested count `n`, `topN`
returns exactly `min n (size view)` elements in non-increasing key order and
clamps rather than failing when `n` exceeds the view size. The code does not
clamp: with two published elements, requesting the top 3 by forks indexes the
view slice out of range and panics (`none`), where the claim demands
`min 3 2 = 2` elements; requesting the top 2 does return the two elements in
non-increasing forks order. -/
theorem claim_C1_code_bug :
    handleViews 0 "UTC" sampleServer "/view/top/3/forks" = none ∧
    sampleServer.topForks.length = 2 ∧
    handleViews 0 "UTC" sampleServer "/view/top/2/forks" =
      some (200, "[[\"Netflix/r1\",9],[\"Netflix/r2\",5]]") := by
  refine ⟨by decide, by decide, by decide⟩

/-- Claim C2: a transport error or non-success status should abort only the
current fetch and surface as a recoverable error. The code instead panics
(`log.Panicf`) on a transport error, which kills the whole process — here the
entire refresh cycle of all four routes comes back as the panic outcome — and
it never inspects the status code at all: a 500 response is treated as a
successful page. -/
theorem claim_C2_code_bug :
    GetPage errWorld (NewPagedGet kGitHubRoot "") = none ∧
    refreshCaches errWorld decT marshalT 1 "" NewServer = none ∧
    GetPage (fun _ => some ⟨500, "err body", ""⟩) (NewPagedGet kGitHubRoot "") =
      some ("err body", false, NewPagedGet kGitHubRoot "") := by
  refine ⟨by decide, by decide, by decide⟩

/-- Claim C3: a three-page chain with `rel="next"` links on the first two
pages yields exactly the three page bodies and then terminates; a response
with no `Link` header, or with a `Link` header carrying no `rel="next"`
entry, ends the iteration after the current page. -/
theorem claim_C3 (b1 b2 b3 : String) (fuel : Nat) :
    runPages (chainWorld b1 b2 b3) (fuel + 3)
      (NewPagedGet kGitHubNetflixRepos "") = some [b1, b2, b3] ∧
    (∀ (st : Nat) (body a : String),
      GetPage (fun _ => some ⟨st, body, ""⟩) ⟨"u", a⟩ =
        some (body, false, ⟨"u", a⟩)) ∧
    (∀ (st : Nat) (body a : String),
      GetPage (fun _ => some ⟨st, body, "<https://api.github.com/p1>; rel=\"prev\""⟩)
        ⟨"u", a⟩ = some (body, false, ⟨"u", a⟩)) :=
  ⟨runPages_chainWorld b1 b2 b3 fuel, fun _ _ _ => rfl, fun _ _ _ => rfl⟩

/-- Claim C7: the `last_updated` metric should be a timezone-independent
ISO-8601 UTC timestamp. The rendering is
`TrimSuffix(t.Local().String(), "-0700 PDT") + "Z"`: for the instant
2021-01-01T00:00:00Z it produces different strings depending on the server's
local timezone, leaks the `+0000 UTC` offset/zone text into the output when
the server runs in UTC, and in US-Pacific time renders the local wall time
with a `Z` (UTC) marker. -/
theorem claim_C7_code_bug :
    renderUpdated 1609459200 0 "UTC" = "2021-01-01 00:00:00 +0000 UTCZ" ∧
    renderUpdated 1609459200 (-25200) "PDT" = "2020-12-31 17:00:00 Z" ∧
    renderUpdated 1609459200 0 "UTC" ≠ renderUpdated 1609459200 (-25200) "PDT" ∧
    handleViews 0 "UTC" sampleServer "/view/top/1/last_updated" =
      some (200, "[[\"Netflix/r2\",\"2021-01-01 00:01:40 +0000 UTCZ\"]]") ∧
    handleViews (-25200) "PDT" sampleServer "/view/top/1/last_updated" =
      some (200, "[[\"Netflix/r2\",\"2020-12-31 17:01:40 Z\"]]") := by
  refine ⟨by decide, by decide, by decide, by decide, by decide⟩

/-- Every successful refresh cycle publishes with the readiness flag set. -/
theorem refreshCaches_ready (w : World) (dec : String → Option (List Repository))
    (marshal : List Repository → String) (fuel : Nat) (tok : String)
    (s s' : Server) (h : refreshCaches w dec marshal fuel tok s = some s') :
    s'.ready = true := by
  unfold refreshCaches at h
  split at h
  · exact Option.noConfusion h
  next s1 _ =>
  split at h
  · exact Option.noConfusion h
  next s2 _ =>
  split at h
  · exact Option.noConfusion h
  next s3 _ =>
  split at h
  · exact Option.noConfusion h
  next s4 _ =>
  injection h with h
  exact h ▸ rfl

/-- A nonempty trace of successful refresh cycles ends ready. -/
theorem runCycles_ready (dec : String → Option (List Repository))
    (marshal : List Repository → String) (fuel : Nat) (tok : String) :
    ∀ (ws : List World) (s0 s : Server), ws ≠ [] →
      runCycles dec marshal fuel tok s0 ws = some s → s.ready = true := by
  intro ws
  induction ws with
  | nil => intro s0 s hne _; exact absurd rfl hne
  | cons w ws ih =>
    intro s0 s _ h
    simp only [runCycles] at h
    split at h
    · exact Option.noConfusion h
    next s1 h1 =>
      cases ws with
      | nil =>
        simp only [runCycles, Option.some.injEq] at h
        exact h ▸ refreshCaches_ready w dec marshal fuel tok s0 s1 h1
      | cons w2 ws2 => exact ih s1 s (by simp) h

/-- Claim C4: the readiness flag starts false, is true after every successful
publish (so it flips at the first one and never resets), and the health-check
handler reports 200 exactly when the flag is true and 503 otherwise; along a
trace of refresh cycles from the initial server, the flag is true exactly
when at least one publish has happened. -/
theorem claim_C4 :
    NewServer.ready = false ∧
    (∀ (w : World) (dec : String → Option (List Repository))
        (marshal : List Repository → String) (fuel : Nat) (tok : String)
        (s s' : Server),
      refreshCaches w dec marshal fuel tok s = some s' → s'.ready = true) ∧
    (∀ s : Server, handleHealthCheck s = 200 ↔ s.ready = true) ∧
    (∀ s : Server, handleHealthCheck s = 503 ↔ s.ready = false) ∧
    (∀ (dec : String → Option (List Repository))
        (marshal : List Repository → String) (fuel : Nat) (tok : String)
        (ws : List World) (s : Server),
      runCycles dec marshal fuel tok NewServer ws = some s →
        (s.ready = true ↔ ws ≠ [])) := by
  refine ⟨rfl, refreshCaches_ready, ?_, ?_, ?_⟩
  · intro s
    unfold handleHealthCheck
    by_cases h : s.ready = true <;> simp [h]
  · intro s
    unfold handleHealthCheck
    by_cases h : s.ready = true <;> simp [h]
  · intro dec marshal fuel tok ws s h
    constructor
    · intro hr hnil
      subst hnil
      simp only [runCycles, Option.some.injEq] at h
      rw [← h] at hr
      exact absurd hr (by decide)
    · intro hne
      exact runCycles_ready dec marshal fuel tok ws NewServer s hne h

/-- The readiness life-cycle at a concrete trace: not ready at start, ready
after one successful cycle. -/
theorem claim_C4_witness :
    handleHealthCheck NewServer = 503 ∧
    ∃ s, runCycles decT marshalT 1 "" NewServer [okWorld] = some s ∧
      handleHealthCheck s = 200 := by
  obtain ⟨h1, _, h3, h4, h5⟩ := claim_C4
  refine ⟨(h4 NewServer).mpr h1, ?_⟩
  cases hr : runCycles decT marshalT 1 "" NewServer [okWorld] with
  | none => exact absurd hr (by decide)
  | some s =>
    exact ⟨s, rfl, (h3 s).mpr ((h5 decT marshalT 1 "" [okWorld] s hr).mpr
      (by simp))⟩

/-- Each sorted view slice is a permutation of its input elements. -/
theorem sortByDesc_perm (key : viewElm → Int) (l : List viewElm) :
    List.Perm (sortByDesc key l) l :=
  List.perm_insertionSort _ l

/-- Claim C5: after a successful repos refresh, the four view sequences are
each a permutation of the view elements derived from this cycle's pages —
the same records, each exactly once per sequence, only reordered, with no
element from any other generation. -/
theorem claim_C5 (w : World) (dec : String → Option (List Repository))
    (marshal : List Repository → String) (fuel : Nat) (tok : String)
    (s s' : Server)
    (h : refreshNetflixRepos w dec marshal fuel tok s = some s') :
    ∃ pages, runPages w fuel (NewPagedGet kGitHubNetflixRepos tok) = some pages ∧
      List.Perm s'.topForks ((reposOfPages dec pages).map mkViewElm) ∧
      List.Perm s'.lastUpdated ((reposOfPages dec pages).map mkViewElm) ∧
      List.Perm s'.topOpenIssues ((reposOfPages dec pages).map mkViewElm) ∧
      List.Perm s'.topStars ((reposOfPages dec pages).map mkViewElm) := by
  unfold refreshNetflixRepos at h
  split at h
  · exact Option.noConfusion h
  next pages hp =>
    injection h with h
    subst h
    exact ⟨pages, hp, sortByDesc_perm _ _, sortByDesc_perm _ _,
      sortByDesc_perm _ _, sortByDesc_perm _ _⟩

/-- The view-permutation invariant at a concrete refresh. -/
theorem claim_C5_witness :
    ∃ s', refreshNetflixRepos okWorld decT marshalT 1 "" NewServer = some s' ∧
      ∃ pages, runPages okWorld 1 (NewPagedGet kGitHubNetflixRepos "") =
          some pages ∧
        List.Perm s'.topForks ((reposOfPages decT pages).map mkViewElm) ∧
        List.Perm s'.lastUpdated ((reposOfPages decT pages).map mkViewElm) ∧
        List.Perm s'.topOpenIssues ((reposOfPages decT pages).map mkViewElm) ∧
        List.Perm s'.topStars ((reposOfPages decT pages).map mkViewElm) := by
  cases hr : refreshNetflixRepos okWorld decT marshalT 1 "" NewServer with
  | none => exact absurd hr (by decide)
  | some s' => exact ⟨s', rfl, claim_C5 okWorld decT marshalT 1 "" NewServer s' hr⟩

/-- The `handleViews` loop never fails when every iteration renders the
empty element string. -/
theorem viewsLoop_const_empty (rem : Nat) : ∀ (ii : Nat) (acc : String),
    ∃ b, viewsLoop (fun _ => some "") rem ii acc = some b := by
  induction rem with
  | zero => intro ii acc; exact ⟨acc ++ "]", rfl⟩
  | succ rem ih =>
    intro ii acc
    simp only [viewsLoop]
    exact ih (ii + 1) _

/-- Claim C6 fails on the code: an unknown sort key with count 2 yields a
200 response with the malformed body `"[,]"`, and a non-numeric or negative
count yields a 200 response with `"[]"` — never a not-found or bad-request
error response. -/
theorem claim_C6_counterexample :
    handleViews 0 "UTC" sampleServer "/view/top/2/bogus" = some (200, "[,]") ∧
    handleViews 0 "UTC" sampleServer "/view/top/abc/forks" = some (200, "[]") ∧
    handleViews 0 "UTC" sampleServer "/view/top/-3/forks" = some (200, "[]") := by
  refine ⟨by decide, by decide, by decide⟩

/-- Claim C6 amended: for invalid view parameters the handler does not crash,
but it returns a 200 success response rather than an error response — with an
unknown sort key the body is an array of empty elements (malformed JSON for
counts above 1), and with a negative or non-numeric count (which the
discarded `Atoi` error turns into 0) the body is the empty array. -/
theorem claim_C6_amended (tzo : Int) (tzn : String) (s : Server) :
    (∀ (count : Int) (key : String), key ≠ "forks" → key ≠ "last_updated" →
      key ≠ "open_issues" → key ≠ "stars" →
      ∃ b, handleViewsTokens tzo tzn s count key = some (200, b)) ∧
    (∀ (count : Int) (key : String), count ≤ 0 →
      handleViewsTokens tzo tzn s count key = some (200, "[]")) := by
  constructor
  · intro count key h1 h2 h3 h4
    have hfun : renderViewElm tzo tzn s key = fun _ => some "" := by
      funext ii
      simp [renderViewElm, h1, h2, h3, h4]
    unfold handleViewsTokens
    rw [hfun]
    obtain ⟨b, hb⟩ := viewsLoop_const_empty count.toNat 0 "["
    exact ⟨b, by rw [hb]; rfl⟩
  · intro count key hc
    have h0 : count.toNat = 0 := Int.toNat_of_nonpos hc
    unfold handleViewsTokens
    rw [h0]
    rfl

/-- The amended C6 behavior at concrete invalid inputs. -/
theorem claim_C6_witness :
    (∃ b, handleViewsTokens 0 "UTC" sampleServer 2 "bogus" = some (200, b)) ∧
    handleViewsTokens 0 "UTC" sampleServer (-3) "forks" = some (200, "[]") :=
  ⟨(claim_C6_amended 0 "UTC" sampleServer).1 2 "bogus" (by decide) (by decide)
      (by decide) (by decide),
    (claim_C6_amended 0 "UTC" sampleServer).2 (-3) "forks" (by decide)⟩

/-- Claim C8 fails on the code: the pass-through proxy does not preserve the
incoming HTTP method — `Forward` builds its upstream request with the
hardcoded method `"GET"`, so a POST request is forwarded as a GET. -/
theorem claim_C8_counterexample :
    postReq.method = "POST" ∧ (forwardedRequest postReq).method = "GET" ∧
    (forwardedRequest postReq).method ≠ postReq.method := by
  refine ⟨rfl, rfl, by decide⟩

/-- Claim C8 amended: for an unrecognized path the proxy issues an upstream
request with method `"GET"` (regardless of the incoming method) but with the
same headers and body as the incoming request, against the upstream URL for
the incoming path, and returns the raw upstream response body. -/
theorem claim_C8_amended (upstream : OutRequest → Option Response)
    (r : InRequest) :
    (forwardedRequest r).method = "GET" ∧
    (forwardedRequest r).headers = r.headers ∧
    (forwardedRequest r).body = r.body ∧
    (forwardedRequest r).url = "https://api.github.com" ++ r.urlPath ∧
    Forward upstream r = (upstream (forwardedRequest r)).map
      (fun resp => resp.body) ∧
    (r.urlPath ≠ "/" → handleRoot upstream NewServer r = Forward upstream r) := by
  refine ⟨rfl, rfl, rfl, rfl, ?_, ?_⟩
  · unfold Forward
    cases upstream (forwardedRequest r) <;> rfl
  · intro h
    unfold handleRoot
    rw [if_neg h]

/-- The amended C8 behavior at the concrete POST request. -/
theorem claim_C8_witness :
    handleRoot upstreamT NewServer postReq = Forward upstreamT postReq ∧
    (forwardedRequest postReq).method = "GET" :=
  ⟨(claim_C8_amended upstreamT postReq).2.2.2.2.2 (by decide),
    (claim_C8_amended upstreamT postReq).1⟩

/-- When `GetPage` reports that no pages remain, it leaves its state (in
particular the stored next link) unchanged. -/
theorem GetPage_last_state (w : World) (g : PagedGet) (b : String)
    (g' : PagedGet) (h : GetPage w g = some (b, false, g')) : g' = g := by
  unfold GetPage at h
  split at h
  · exact Option.noConfusion h
  · split at h
    · exact Option.noConfusion h
    · split at h
      · simp_all
      · split at h <;> simp_all

/-- Claim C9 fails on the code: after a call that reported no pages remain,
a further `GetPage` call does not panic — the stored next link is left
pointing at the already-fetched URL, so the call re-fetches the same page
and returns it again. -/
theorem claim_C9_counterexample :
    GetPage wLast (NewPagedGet "/p" "") =
      some ("L", false, NewPagedGet "/p" "") ∧
    GetPage wLast (NewPagedGet "/p" "") ≠ none := by
  refine ⟨by decide, by decide⟩

/-- Claim C9 amended: `GetPage` panics exactly when the stored next link is
the empty string; but a call that reports the end of the page chain leaves
the stored link unchanged (and the constructor never produces an empty
link), so a subsequent call behaves exactly like the previous one — it
re-fetches the current link rather than panicking. -/
theorem claim_C9_amended :
    (∀ (w : World) (a : String), GetPage w ⟨"", a⟩ = none) ∧
    (∀ (w : World) (g : PagedGet) (b : String) (g' : PagedGet),
      GetPage w g = some (b, false, g') → g' = g) ∧
    (∀ (path tok : String), (NewPagedGet path tok).nextLink ≠ "") ∧
    (∀ (w : World) (g : PagedGet) (b : String) (g' : PagedGet),
      GetPage w g = some (b, false, g') → GetPage w g' = GetPage w g) := by
  refine ⟨fun w a => rfl, GetPage_last_state, ?_, ?_⟩
  · intro path tok h
    simp only [NewPagedGet] at h
    have hl := congrArg String.length h
    rw [String.length_append] at hl
    have h22 : "https://api.github.com".length = 22 := rfl
    have h0 : "".length = 0 := rfl
    omega
  · intro w g b g' h
    rw [GetPage_last_state w g b g' h]

/-- The amended C9 behavior at concrete inputs: the empty-link state panics,
the constructor's state is non-empty, and the state after the final page is
the state before it. -/
theorem claim_C9_witness :
    GetPage wLast ⟨"", ""⟩ = none ∧
    (NewPagedGet "/p" "").nextLink ≠ "" ∧
    ∃ g', GetPage wLast (NewPagedGet "/p" "") = some ("L", false, g') ∧
      g' = NewPagedGet "/p" "" := by
  obtain ⟨h1, h2, h3, _⟩ := claim_C9_amended
  exact ⟨h1 wLast "", h3 "/p" "",
    ⟨NewPagedGet "/p" "", by decide,
      h2 wLast (NewPagedGet "/p" "") "L" (NewPagedGet "/p" "") (by decide)⟩⟩

/-- Claim C10: a page body that fails to decode is silently skipped — its
entities are simply absent from the flattened list while all other pages'
entities survive, and the refresh still publishes: over the three-page chain
with an undecodable middle page, the cycle succeeds and the published repos
body is the serialization of the first and third pages' entities only. -/
theorem claim_C10 :
    (∀ (dec : String → Option (List Repository)) (b : String)
        (ps qs : List String), dec b = none →
      reposOfPages dec (ps ++ b :: qs) = reposOfPages dec (ps ++ qs)) ∧
    (∀ (dec : String → Option (List Repository))
        (marshal : List Repository → String) (fuel : Nat) (b1 b2 b3 : String)
        (s : Server), dec b2 = none →
      ∃ s', refreshNetflixRepos (chainWorld b1 b2 b3) dec marshal (fuel + 3)
          "" s = some s' ∧
        s'.cacheRepos = marshal ((dec b1).getD [] ++ (dec b3).getD [])) := by
  constructor
  · intro dec b ps qs hb
    simp [reposOfPages, hb]
  · intro dec marshal fuel b1 b2 b3 s hb
    refine ⟨{ s with
        cacheRepos := marshal (reposOfPages dec [b1, b2, b3]),
        topForks := sortByDesc (fun v => v.forks)
          ((reposOfPages dec [b1, b2, b3]).map mkViewElm),
        lastUpdated := sortByDesc (fun v => v.updated)
          ((reposOfPages dec [b1, b2, b3]).map mkViewElm),
        topOpenIssues := sortByDesc (fun v => v.openIssues)
          ((reposOfPages dec [b1, b2, b3]).map mkViewElm),
        topStars := sortByDesc (fun v => v.stars)
          ((reposOfPages dec [b1, b2, b3]).map mkViewElm) }, ?_, ?_⟩
    · unfold refreshNetflixRepos
      rw [runPages_chainWorld]
    · show marshal (reposOfPages dec [b1, b2, b3]) = _
      congr 1
      simp [reposOfPages, hb]

/-- Silent skipping of the undecodable middle page at concrete inputs. -/
theorem claim_C10_witness :
    reposOfPages decW (["P1"] ++ "P2" :: ["P3"]) =
      reposOfPages decW (["P1"] ++ ["P3"]) ∧
    ∃ s', refreshNetflixRepos (chainWorld "P1" "P2" "P3") decW marshalT
        (0 + 3) "" NewServer = some s' ∧
      s'.cacheRepos = marshalT ((decW "P1").getD [] ++ (decW "P3").getD []) :=
  ⟨claim_C10.1 decW "P2" ["P1"] ["P3"] (by decide),
    claim_C10.2 decW marshalT 0 "P1" "P2" "P3" NewServer (by decide)⟩

end ApiCache
